import Mathlib

/-
Verification of the feed-discovery pipeline of `find-rss-feeds.ts`
(rss-agent-discovery).

The TypeScript source is shallowly embedded as executable Lean functions.
Platform capabilities that the source calls but does not implement —
cheerio's HTML parsing (`cheerio.load`, `$('...')` selectors), the WHATWG
URL parser (`new URL(...)`) and the network (`fetch`) — are modelled as an
explicit environment (`Env`) of oracle functions, exactly at the interface
the source uses (element lists with attributes, `origin`/`pathname`/`href`
of a resolved URL, a response per fetched URL).  JavaScript string
operations (`includes`, `startsWith`, `trim`, `split`, `parseInt`,
truthiness of strings and nullable values) are modelled character-exactly
below.  JavaScript exceptions are modelled with `Except`; the per-URL
`AbortSignal.timeout` deadline is modelled by letting the network oracle
answer a fetch with an abort outcome, which the embedding turns into the
`DOMException` the source would see.
-/

namespace RSSFeeds

/-! ## JavaScript string primitives -/

/-- Whitespace predicate used by the models of JavaScript `trim` and
`trimStart` (the JS set also has exotic Unicode spaces; the ASCII core
modelled here is what every string in this development uses). -/
def jsWhitespace (c : Char) : Bool :=
  c = ' ' ∨ c = '\t' ∨ c = '\n' ∨ c = '\r'

/-- Model of JavaScript `String.prototype.trimStart`. -/
def jsTrimStart (s : String) : String :=
  String.mk (s.toList.dropWhile jsWhitespace)

/-- Model of JavaScript `String.prototype.trimEnd`. -/
def jsTrimEnd (s : String) : String :=
  String.mk ((s.toList.reverse.dropWhile jsWhitespace).reverse)

/-- Model of JavaScript `String.prototype.trim`. -/
def jsTrim (s : String) : String :=
  jsTrimEnd (jsTrimStart s)

/-- Does `p` occur as a contiguous run inside `l`?  This is the character
model of JavaScript `String.prototype.includes`. -/
def listContains (p : List Char) : List Char → Bool
  | [] => p.isEmpty
  | a :: t => p.isPrefixOf (a :: t) || listContains p t

/-- Model of JavaScript `s.includes(sub)` (case-sensitive substring test). -/
def jsIncludes (s sub : String) : Bool :=
  listContains sub.toList s.toList

/-- Model of JavaScript `s.startsWith(pre)`. -/
def jsStartsWith (s pre : String) : Bool :=
  pre.toList.isPrefixOf s.toList

/-- Model of JavaScript `String.prototype.toLowerCase` (character-wise). -/
def jsToLower (s : String) : String :=
  String.mk (s.toList.map Char.toLower)

/-- Split a character list at every character satisfying `p`, keeping empty
pieces, as JavaScript `String.prototype.split` does with a single-character
(or character-class) separator. -/
def splitCharsP (p : Char → Bool) : List Char → List (List Char)
  | [] => [[]]
  | c :: t =>
    let r := splitCharsP p t
    if p c then [] :: r
    else
      match r with
      | [] => [[c]]
      | h :: t2 => (c :: h) :: t2

/-- Model of JavaScript `s.split(sep)` for a one-character separator. -/
def jsSplitChar (s : String) (sep : Char) : List String :=
  (splitCharsP (fun c => c = sep) s.toList).map String.mk

/-- Model of JavaScript `parseInt(s, 10)`: skip leading whitespace, read an
optional sign and then leading decimal digits; `none` models `NaN`. -/
def jsParseInt (s : String) : Option Int :=
  let cs := s.toList.dropWhile jsWhitespace
  let signed : Bool × List Char :=
    match cs with
    | '-' :: t => (true, t)
    | '+' :: t => (false, t)
    | t => (false, t)
  let digits := signed.2.takeWhile Char.isDigit
  if digits.isEmpty then none
  else
    let n : Nat := digits.foldl (fun acc c => acc * 10 + (c.toNat - '0'.toNat)) 0
    some (if signed.1 then -(n : Int) else (n : Int))

/-- JavaScript truthiness of a nullable string (`null` and `""` are falsy). -/
def truthyStr : Option String → Bool
  | none => false
  | some s => s ≠ ""

/-! ## FeedValidator (find-rss-feeds.ts lines 312–320)

The validation of a fetched candidate body against its content-type header,
exactly as computed inline in `scanURLForFeeds`. -/

/-- Lines 314–320: the feed heuristic applied to a fetched candidate's body
text and `content-type` header value. -/
def isValidFeed (text contentType : String) : Bool :=
  let hasXmlDeclaration :=
    jsStartsWith (jsTrimStart text) "<?xml" || jsIncludes text "<?xml"
  let hasXmlContentType :=
    jsIncludes contentType "xml" || jsIncludes contentType "rss" ||
      jsIncludes contentType "atom"
  let hasRssOrFeed := jsIncludes text "<rss" || jsIncludes text "<feed"
  let isHtml := jsIncludes contentType "text/html"
  hasRssOrFeed && (hasXmlDeclaration || hasXmlContentType) && !isHtml

/-! ## Data model (find-rss-feeds.ts lines 19–54) -/

/-- The `'rss' | 'atom' | 'unknown'` union of the `FeedResult` interface. -/
inductive FeedType where
  | rss
  | atom
  | unknown
deriving DecidableEq, Repr

/-- Interface `FeedResult` (lines 29–33). -/
structure FeedResult where
  url : String
  title : String
  type : FeedType
deriving DecidableEq, Repr

/-- Interface `ScanResult` (lines 35–38); `html` is `none` for JS `null`. -/
structure ScanResult where
  html : Option String
  feeds : List FeedResult
deriving DecidableEq, Repr

/-- Interface `DiscoveredResult` (lines 40–44). -/
structure DiscoveredResult where
  url : String
  feeds : List FeedResult
  error : Option String
deriving DecidableEq, Repr

/-- The JSON document printed by `main` (lines 447–454): `partialResults`
is an optional field, only ever set to `true`. -/
structure RunReport where
  success : Bool
  partialResults : Option Bool
  results : List DiscoveredResult
deriving DecidableEq, Repr

/-- Interface `CLIOptions` (lines 19–27).  `maxBlogs` and `timeout` are kept
as `Nat`: `parseArgs` rejects non-positive values and the defaults are
positive, so every reachable value is a positive integer. -/
structure CLIOptions where
  help : Bool
  version : Bool
  verbose : Bool
  skipBlogs : Bool
  maxBlogs : Nat
  customBlogPaths : Option (List String)
  timeout : Nat
deriving DecidableEq, Repr

/-- The initial `cliOptions` value (lines 46–54). -/
def defaultCliOptions : CLIOptions :=
  { help := false, version := false, verbose := false, skipBlogs := false
    maxBlogs := 5, customBlogPaths := none, timeout := 10000 }

/-- `BLOG_KEYWORDS` (lines 56–61), in source order. -/
def BLOG_KEYWORDS : List String :=
  ["blog", "news", "articles", "posts", "updates",
   "journal", "insights", "stories", "press", "medium",
   "substack", "the-edge", "engineering-blog", "dev",
   "engineering", "developers", "community"]

/-- `COMMON_BLOG_PATHS` (lines 63–81), in source order. -/
def COMMON_BLOG_PATHS : List String :=
  ["/blog", "/news", "/articles", "/posts", "/updates", "/journal",
   "/insights", "/stories", "/press", "/medium", "/substack", "/the-edge",
   "/engineering-blog", "/engineering", "/developers", "/dev", "/community"]

/-- The `commonPaths` list of conventional feed locations inside
`scanURLForFeeds` (lines 281–284), in source order. -/
def commonPaths : List String :=
  ["rss.xml", "feed.xml", "rss", "atom", "atom.xml", "index.xml",
   "feeds/rss.xml", "feed", "rss/feed.xml"]

/-! ## Platform capabilities as an oracle environment

The source leans on three capabilities it does not implement: the WHATWG
URL parser, cheerio's HTML parsing, and `fetch`.  Each is modelled at
exactly the interface the source reads. -/

/-- The fields of a WHATWG `URL` object the source reads. -/
structure URLRec where
  origin : String
  pathname : String
  href : String
deriving DecidableEq, Repr

/-- One element of `$('a[href]')`: its `href` attribute (present by the
selector) and its text content as returned by `$(el).text()`. -/
structure AnchorEl where
  href : String
  text : String
deriving DecidableEq, Repr

/-- One element of `$('link[rel="alternate"]')` with the three attributes
the source reads (`attr` yields `undefined`, modelled `none`, when the
attribute is missing). -/
structure LinkAlt where
  typeAttr : Option String
  hrefAttr : Option String
  titleAttr : Option String
deriving DecidableEq, Repr

/-- The result of `cheerio.load`, restricted to the two selector queries the
source performs. -/
structure HTMLDoc where
  alternates : List LinkAlt
  anchors : List AnchorEl
deriving DecidableEq, Repr

/-- The fields of a `fetch` response the source reads; `contentType` is
`res.headers.get('content-type')` (nullable). -/
structure FetchResponse where
  ok : Bool
  status : Nat
  contentType : Option String
  body : String
deriving DecidableEq, Repr

/-- Outcome of one `fetch(url, { signal })`: a response, a rejection with a
network error, or a rejection because the per-URL deadline signal aborted
the request (Node rejects with a `DOMException` named `TimeoutError` when
the signal came from `AbortSignal.timeout`). -/
inductive FetchOutcome where
  | resp (r : FetchResponse)
  | netError (msg : String)
  | aborted (msg : String)
deriving DecidableEq, Repr

/-- A thrown JavaScript value as far as the source inspects it:
`DOMException`s carry a `name`, ordinary `Error`s only a message. -/
inductive JSError where
  | domException (name message : String)
  | jsError (message : String)
deriving DecidableEq, Repr

/-- The oracle environment: `parseHTML` models `cheerio.load` plus the two
selector queries, `resolveURL href base` models `new URL(href, base)`
(`none` = the constructor throws), `parseURL` the one-argument constructor,
and `net` the network as seen through `fetch` under the per-URL signal. -/
structure Env where
  parseHTML : String → HTMLDoc
  resolveURL : String → String → Option URLRec
  parseURL : String → Option URLRec
  net : String → FetchOutcome

/-! ## Insertion-ordered maps and sets

`Map` and `Set` objects in the source iterate in insertion order and are
only ever updated through a guarded `if (!m.has(k)) m.set(k, v)` /
`s.add(x)`; they are modelled as ordered association lists. -/

/-- `m.get(k)` on an insertion-ordered association list. -/
def lookupA {α : Type} (m : List (String × α)) (k : String) : Option α :=
  (m.find? (fun p => p.1 = k)).map (fun p => p.2)

/-- `m.has(k)`. -/
def hasA {α : Type} (m : List (String × α)) (k : String) : Bool :=
  (lookupA m k).isSome

/-- The guarded insertion `if (!m.has(k)) m.set(k, v)` used throughout the
source: an existing binding is never overwritten. -/
def insertIfAbsent {α : Type} (m : List (String × α)) (k : String) (v : α) :
    List (String × α) :=
  if hasA m k then m else m ++ [(k, v)]

/-- `Set.prototype.add` on an insertion-ordered list. -/
def setAdd (l : List String) (x : String) : List String :=
  if x ∈ l then l else l ++ [x]

/-- The keys of an association list, in insertion order. -/
def keysA {α : Type} (m : List (String × α)) : List String :=
  m.map (fun p => p.1)

/-! ## CandidateResolver (find-rss-feeds.ts lines 258–302)

The two passes that build `discoveredFeeds` inside `scanURLForFeeds`:
declared `<link rel="alternate">` feeds first, then the conventional
feed paths. -/

/-- JS truthiness of an attribute value together with the default used for
`title`: `$(el).attr('title') || 'RSS Feed'`. -/
def attrOrDefault (a : Option String) (d : String) : String :=
  match a with
  | some s => if s = "" then d else s
  | none => d

/-- The body of the `$('link[rel="alternate"]').each(...)` callback
(lines 260–279) acting on the `discoveredFeeds` map. -/
def declaredStep (env : Env) (url : String) (m : List (String × FeedResult))
    (el : LinkAlt) : List (String × FeedResult) :=
  match el.typeAttr with
  | some t =>
    if t ≠ "" ∧ (jsIncludes t "rss+xml" = true ∨ jsIncludes t "atom+xml" = true) then
      match el.hrefAttr with
      | some h =>
        if h ≠ "" then
          let title := attrOrDefault el.titleAttr "RSS Feed"
          match env.resolveURL h url with
          | some u =>
            let feedType := if jsIncludes t "atom" then FeedType.atom else FeedType.rss
            insertIfAbsent m u.href { url := u.href, title := title, type := feedType }
          | none => m
        else m
      | none => m
    else m
  | none => m

/-- Pass 1 (lines 260–279): scan the `link[rel="alternate"]` elements whose
`type` contains `rss+xml` or `atom+xml`, resolve their `href` against the
page URL (skipping hrefs that fail to parse), and record each feed once. -/
def declaredFeedCandidates (env : Env) (url : String) (alts : List LinkAlt) :
    List (String × FeedResult) :=
  alts.foldl (declaredStep env url) []

/-- `candidateUrl.split('/').pop() || 'RSS Feed'` (line 293). -/
def lastUrlSegmentOrDefault (s : String) : String :=
  match (jsSplitChar s '/').getLast? with
  | some last => if last = "" then "RSS Feed" else last
  | none => "RSS Feed"

/-- The body of the `for (const path of commonPaths)` loop (lines 286–302)
acting on the `discoveredFeeds` map. -/
def conventionalStep (env : Env) (url : String) (m : List (String × FeedResult))
    (path : String) : List (String × FeedResult) :=
  match env.resolveURL path url with
  | some u =>
    let feedType := if jsIncludes path "atom" then FeedType.atom else FeedType.rss
    insertIfAbsent m u.href
      { url := u.href, title := lastUrlSegmentOrDefault u.href, type := feedType }
  | none => m

/-- Pass 2 (lines 286–302): append each conventional path resolved against
the page URL, unless that URL was already discovered in pass 1. -/
def conventionalFeedCandidates (env : Env) (url : String)
    (m0 : List (String × FeedResult)) : List (String × FeedResult) :=
  commonPaths.foldl (conventionalStep env url) m0

/-- The full candidate map built by `scanURLForFeeds` before validation. -/
def candidateFeeds (env : Env) (url : String) (doc : HTMLDoc) :
    List (String × FeedResult) :=
  conventionalFeedCandidates env url (declaredFeedCandidates env url doc.alternates)

/-! ## BlogSectionFinder (find-rss-feeds.ts lines 173–243) -/

/-- One entry of `linkTextAndUrls` (lines 177–195): lower-cased trimmed
anchor text, the resolved URL's path, and its full href. -/
structure LinkInfo where
  text : String
  path : String
  href : String
deriving DecidableEq, Repr

/-- Lines 179–195: collect every anchor with a truthy `href` whose resolved
URL parses and shares its origin with `new URL(baseUrl)`; anchors whose
resolution throws are skipped by the empty `catch`. -/
def sameOriginLinks (env : Env) (doc : HTMLDoc) (baseUrl : String) : List LinkInfo :=
  doc.anchors.filterMap
    (fun a =>
      if a.href ≠ "" then
        match env.resolveURL a.href baseUrl, env.parseURL baseUrl with
        | some u, some b =>
          if u.origin = b.origin then
            some { text := jsTrim (jsToLower a.text), path := u.pathname, href := u.href }
          else none
        | _, _ => none
      else none)

/-- `link.path.split('/').filter(Boolean)` (line 210). -/
def jsPathParts (path : String) : List String :=
  (jsSplitChar path '/').filter (fun s => s ≠ "")

/-- The `BLOG_KEYWORDS.find(...)` test of lines 203–206. -/
def findBlogKeyword (text lowerPath : String) : Option String :=
  BLOG_KEYWORDS.find? (fun keyword =>
    jsIncludes text keyword || jsIncludes lowerPath keyword)

/-- The body of the `for (const link of linkTextAndUrls)` loop
(lines 198–221) acting on the pair (blogPaths, seenPaths). -/
def processBlogLink (st : List String × List String) (link : LinkInfo) :
    List String × List String :=
  let blogPaths := st.1
  let seenPaths := st.2
  if link.path ∈ seenPaths then st
  else
    let lowerPath := jsToLower link.path
    match findBlogKeyword link.text lowerPath with
    | some _ =>
      if jsStartsWith link.path "/" = true ∧ link.path ≠ "/" then
        let parts := jsPathParts link.path
        if 1 ≤ parts.length ∧ parts.length ≤ 3 then
          let blogPath := "/" ++ parts.headD ""
          if blogPath ∈ seenPaths then st
          else (setAdd blogPaths blogPath, setAdd (setAdd seenPaths blogPath) link.path)
        else st
      else st
    | none => st

/-- `extractBlogLinksFromHTML` (lines 173–224). -/
def extractBlogLinksFromHTML (env : Env) (html baseUrl : String) : List String :=
  ((sameOriginLinks env (env.parseHTML html) baseUrl).foldl processBlogLink ([], [])).1

/-- Lines 227–231 of `discoverBlogSubdirectories`: the heuristic paths, run
only when `html` is truthy (non-null and non-empty). -/
def blogHeuristicPaths (env : Env) (baseUrl : String) (html : Option String) :
    List String :=
  match html with
  | some h => if h ≠ "" then extractBlogLinksFromHTML env h baseUrl else []
  | none => []

/-- `discoverBlogSubdirectories` (lines 226–243): heuristic paths, then —
when none were found or a custom list is configured — the custom list if
present else `COMMON_BLOG_PATHS`, appended without duplication, truncated
to `maxBlogs`. -/
def discoverBlogSubdirectories (env : Env) (opts : CLIOptions) (baseUrl : String)
    (html : Option String) : List String :=
  let blogPaths := blogHeuristicPaths env baseUrl html
  let blogPaths :=
    if blogPaths.length = 0 ∨ opts.customBlogPaths.isSome then
      let pathsToUse := opts.customBlogPaths.getD COMMON_BLOG_PATHS
      pathsToUse.foldl setAdd blogPaths
    else blogPaths
  blogPaths.take opts.maxBlogs

/-! ## SiteScanner (find-rss-feeds.ts lines 245–336) -/

/-- The `try` body of `scanURLForFeeds` (lines 248–331): fetch the page
(non-ok statuses throw), build the candidate map, then keep each candidate
whose own fetch succeeds and whose body validates; a candidate fetch that
rejects is swallowed by the inner `catch` (lines 324–328). -/
def scanURLForFeedsBody (env : Env) (url : String) : Except JSError ScanResult := do
  let res ←
    match env.net url with
    | FetchOutcome.resp r => pure r
    | FetchOutcome.netError msg => throw (JSError.jsError msg)
    | FetchOutcome.aborted msg => throw (JSError.domException "TimeoutError" msg)
  if !res.ok then
    throw (JSError.jsError ("Failed to fetch " ++ url ++ ": " ++ toString res.status))
  let html := res.body
  let doc := env.parseHTML html
  let discoveredFeeds := candidateFeeds env url doc
  let validFeeds := discoveredFeeds.filterMap
    (fun p =>
      match env.net p.1 with
      | FetchOutcome.resp r =>
        if r.ok then
          let contentType := r.contentType.getD ""
          if isValidFeed r.body contentType then some p.2 else none
        else none
      | _ => none)
  pure { html := some html, feeds := validFeeds }

/-- `scanURLForFeeds` (lines 245–336): any exception from the body — network
failure, non-ok status, or the deadline signal aborting a fetch — is caught
at lines 332–335, logged, and turned into `{ html: null, feeds: [] }`. -/
def scanURLForFeeds (env : Env) (url : String) : ScanResult :=
  match scanURLForFeedsBody env url with
  | Except.ok r => r
  | Except.error _ => { html := none, feeds := [] }

/-! ## DiscoveryCoordinator (find-rss-feeds.ts lines 338–401) -/

/-- The error classification of the `catch` in `findRSSFeeds`
(lines 386–393): a `DOMException` named `AbortError` is normalized to
`"Timeout"`; otherwise the message is kept (the redundant
`errorMessage === 'Timeout'` branch re-assigns the same string). -/
def classifyError (e : JSError) : String :=
  match e with
  | JSError.domException name message =>
    if name = "AbortError" then "Timeout"
    else if message = "Timeout" then "Timeout" else message
  | JSError.jsError message =>
    if message = "Timeout" then "Timeout" else message

/-- Merge a list of feeds into the `allFeeds` map, first-seen-wins
(lines 347–351 and 371–375). -/
def mergeFeeds (m : List (String × FeedResult)) (feeds : List FeedResult) :
    List (String × FeedResult) :=
  feeds.foldl (fun m f => insertIfAbsent m f.url f) m

/-- The `try` body of `findRSSFeeds` (lines 342–385).  `scanURLForFeeds`
never rejects (its whole body is wrapped in its own `try`/`catch`) and
`Promise.allSettled` never rejects, so in this model the body always
returns; it is still written in `Except` to keep the source's
`try`/`catch` shape. -/
def findRSSFeedsBody (env : Env) (opts : CLIOptions) (baseUrl : String) :
    Except JSError DiscoveredResult := do
  let scanResult := scanURLForFeeds env baseUrl
  let allFeeds := mergeFeeds [] scanResult.feeds
  let allFeeds : List (String × FeedResult) :=
    match scanResult.html with
    | some h =>
      if !opts.skipBlogs && h ≠ "" then
        let blogPaths := discoverBlogSubdirectories env opts baseUrl (some h)
        if blogPaths.length > 0 then
          let blogURLs : List String := blogPaths.filterMap
            (fun path => (env.resolveURL path baseUrl).map (fun u => u.href))
          let blogResults : List ScanResult := blogURLs.map (scanURLForFeeds env)
          blogResults.foldl (fun m r => mergeFeeds m r.feeds) allFeeds
        else allFeeds
      else allFeeds
    | none => allFeeds
  pure { url := baseUrl, feeds := allFeeds.map (fun p => p.2), error := none }

/-- `findRSSFeeds` (lines 338–401): the `catch` normalizes an escaping
exception via `classifyError` into a result with empty feeds. -/
def findRSSFeeds (env : Env) (opts : CLIOptions) (baseUrl : String) :
    DiscoveredResult :=
  match findRSSFeedsBody env opts baseUrl with
  | Except.ok r => r
  | Except.error e => { url := baseUrl, feeds := [], error := some (classifyError e) }

/-! ## main (find-rss-feeds.ts lines 403–469) -/

/-- The result-tallying loop of lines 435–445: `totalFeedsFound` counts the
feeds of results whose `error` is falsy; `hasError` records whether any
`error` was truthy. -/
def tallyResults (results : List DiscoveredResult) : Nat × Bool :=
  results.foldl
    (fun acc r =>
      if truthyStr r.error then (acc.1, true) else (acc.1 + r.feeds.length, acc.2))
    (0, false)

/-- Lines 435–468: build the `output` JSON document and the exit code from
the per-URL results. -/
def mainAggregate (results : List DiscoveredResult) : RunReport × Nat :=
  let tally := tallyResults results
  let totalFeedsFound := tally.1
  let hasError := tally.2
  let report : RunReport :=
    { success := !hasError
      partialResults := if hasError && totalFeedsFound > 0 then some true else none
      results := results }
  let code : Nat := if hasError then 2 else if totalFeedsFound = 0 then 1 else 0
  (report, code)

/-- The loop of `parseArgs` (lines 83–123), threading the mutable
`cliOptions` record and the `urls` array. -/
def parseArgsGo : List String → CLIOptions → List String →
    Except String (List String × CLIOptions)
  | [], opts, urls => Except.ok (urls, opts)
  | arg :: rest, opts, urls =>
    if arg = "--help" ∨ arg = "-h" then
      parseArgsGo rest { opts with help := true } urls
    else if arg = "--version" ∨ arg = "-V" then
      parseArgsGo rest { opts with version := true } urls
    else if arg = "--verbose" ∨ arg = "-v" then
      parseArgsGo rest { opts with verbose := true } urls
    else if arg = "--no-blogs" ∨ arg = "--skip-blogs" then
      parseArgsGo rest { opts with skipBlogs := true } urls
    else if arg = "--max-blogs" then
      match rest with
      | [] => Except.error "--max-blogs requires a value"
      | v :: rest2 =>
        match jsParseInt v with
        | none => Except.error ("--max-blogs requires a positive number, got: " ++ v)
        | some n =>
          if n ≤ 0 then
            Except.error ("--max-blogs requires a positive number, got: " ++ v)
          else parseArgsGo rest2 { opts with maxBlogs := n.toNat } urls
    else if arg = "--blog-paths" then
      match rest with
      | [] => Except.error "--blog-paths requires a value"
      | v :: rest2 =>
        if jsTrim v = "" then Except.error "--blog-paths requires a value"
        else
          let parts := ((splitCharsP (fun c => c = ',' ∨ c = '|') v.toList).map
            (fun l => jsTrim (String.mk l))).filter (fun p => p ≠ "")
          parseArgsGo rest2 { opts with customBlogPaths := some parts } urls
    else if arg = "--timeout" then
      match rest with
      | [] => Except.error "--timeout requires a value"
      | v :: rest2 =>
        match jsParseInt v with
        | none => Except.error ("--timeout requires a positive number, got: " ++ v)
        | some n =>
          if n ≤ 0 then
            Except.error ("--timeout requires a positive number, got: " ++ v)
          else parseArgsGo rest2 { opts with timeout := n.toNat } urls
    else if jsStartsWith arg "http://" = true ∨ jsStartsWith arg "https://" = true then
      parseArgsGo rest opts (urls ++ [arg])
    else
      parseArgsGo rest opts urls
termination_by structural l _ _ => l

/-- `parseArgs` (lines 83–123), started from the initial `cliOptions`. -/
def parseArgs (args : List String) : Except String (List String × CLIOptions) :=
  parseArgsGo args defaultCliOptions []

/-- `main` (lines 403–469): parse the arguments (usage errors exit 2),
short-circuit `--version`/`--help` with exit 0, reject an empty URL list
with exit 2, otherwise scan every URL and aggregate.  The second component
is the printed `RunReport`, when one is printed. -/
def mainModel (env : Env) (args : List String) : Nat × Option RunReport :=
  match parseArgs args with
  | Except.error _ => (2, none)
  | Except.ok (urls, opts) =>
    if opts.version then (0, none)
    else if opts.help then (0, none)
    else if urls.length = 0 then (2, none)
    else
      let results := urls.map (findRSSFeeds env opts)
      let out := mainAggregate results
      (out.2, some out.1)

/-! ## Concrete environments used by counterexamples and witnesses -/

/-- An HTML document with no elements of interest. -/
def emptyDoc : HTMLDoc := { alternates := [], anchors := [] }

/-- WHATWG resolution of an absolute-path or bare relative reference
against an origin-only base URL (the only resolutions the concrete runs
below perform). -/
def resolveUnder (base href : String) : Option URLRec :=
  if jsStartsWith href "/" then
    some { origin := base, pathname := href, href := base ++ href }
  else
    some { origin := base, pathname := "/" ++ href, href := base ++ "/" ++ href }

def goodURL : String := "https://good.example"

def badURL : String := "https://bad.example"

def goodFeedURL : String := "https://good.example/feed.atom"

/-- The root page served by `good.example`: it declares one atom
alternate link. -/
def goodHtml : String :=
  "<html><head><link rel=\"alternate\" type=\"application/atom+xml\" href=\"/feed.atom\" title=\"Blog\"></head><body></body></html>"

/-- `cheerio.load goodHtml` restricted to the two queries performed. -/
def goodDoc : HTMLDoc :=
  { alternates :=
      [{ typeAttr := some "application/atom+xml", hrefAttr := some "/feed.atom",
         titleAttr := some "Blog" }]
    anchors := [] }

/-- A valid atom body. -/
def atomBody : String := "<?xml version=\"1.0\"?><feed></feed>"

/-- The environment of the C1 scenario: `good.example` serves `goodHtml`
and its declared feed validates; every fetch of `bad.example` (and of any
conventional or blog-section candidate) rejects with a network error. -/
def envC1 : Env :=
  { parseHTML := fun s => if s = goodHtml then goodDoc else emptyDoc
    resolveURL := fun href base => if base = goodURL then resolveUnder goodURL href else none
    parseURL := fun s =>
      if s = goodURL then some { origin := goodURL, pathname := "/", href := goodURL ++ "/" }
      else none
    net := fun u =>
      if u = goodURL then
        FetchOutcome.resp { ok := true, status := 200, contentType := some "text/html", body := goodHtml }
      else if u = goodFeedURL then
        FetchOutcome.resp { ok := true, status := 200, contentType := some "application/atom+xml", body := atomBody }
      else FetchOutcome.netError "fetch failed" }

def slowURL : String := "https://slow.example"

/-- The environment of the C2 scenario: the per-URL deadline fires while
the root fetch is outstanding, so every fetch under the shared signal
rejects with the abort `DOMException`. -/
def envC2 : Env :=
  { parseHTML := fun _ => emptyDoc
    resolveURL := fun _ _ => none
    parseURL := fun _ => none
    net := fun _ => FetchOutcome.aborted "The operation was aborted due to timeout" }

def exURL : String := "https://example.com"

/-- A root page with one same-origin blog anchor. -/
def blogHtml : String := "<html><body><a href=\"/blog\">Blog</a></body></html>"

/-- `cheerio.load blogHtml` restricted to the two queries performed. -/
def blogDoc : HTMLDoc :=
  { alternates := [], anchors := [{ href := "/blog", text := "Blog" }] }

/-- Environment for the BlogSectionFinder scenarios: `example.com` pages,
WHATWG resolution against the `example.com` origin, no network. -/
def envEx : Env :=
  { parseHTML := fun s => if s = blogHtml then blogDoc else emptyDoc
    resolveURL := fun href base => if base = exURL then resolveUnder exURL href else none
    parseURL := fun s =>
      if s = exURL then some { origin := exURL, pathname := "/", href := exURL ++ "/" }
      else none
    net := fun _ => FetchOutcome.netError "fetch failed" }

/-- Options with a custom blog-path override configured. -/
def optsC6 : CLIOptions := { defaultCliOptions with customBlogPaths := some ["/custom"] }

/-! ## Concrete inputs used by counterexamples and witnesses -/

/-- The argument list of the C1 scenario. -/
def c1Args : List String := [goodURL, badURL]

/-- A placeholder result used only to read fields of a concrete report. -/
def noResult : DiscoveredResult := { url := "", feeds := [], error := none }

/-- The report the model actually prints in the C1 scenario. -/
def c1Report : RunReport :=
  ((mainModel envC1 c1Args).2).getD { success := true, partialResults := none, results := [] }

/-- A result list in which one URL failed and another contributed a feed. -/
def c3Results : List DiscoveredResult :=
  [{ url := "https://down.example", feeds := [], error := some "Timeout" },
   { url := "https://up.example"
     feeds := [{ url := "https://up.example/rss.xml", title := "rss.xml", type := FeedType.rss }]
     error := none }]

/-- A result list with one failed and one feed-bearing entry, used to
instantiate C5. -/
def c5Results : List DiscoveredResult :=
  [{ url := "https://offline.example", feeds := [], error := some "Timeout" },
   { url := "https://online.example"
     feeds := [{ url := "https://online.example/atom", title := "atom", type := FeedType.atom }]
     error := none }]

/-- A page whose declared feed link resolves to the same URL as the
conventional `rss.xml` path. -/
def c8Doc : HTMLDoc :=
  { alternates :=
      [{ typeAttr := some "application/rss+xml", hrefAttr := some "rss.xml",
         titleAttr := some "Main" }]
    anchors := [] }

/-- The URL tokens of an argument list as C10 describes them: walk the
tokens; a value-taking option consumes the next token; among the
remaining tokens exactly those starting with `http://` or `https://` are
kept, in order; everything else is dropped. -/
def claimedUrls : List String → List String
  | [] => []
  | a :: rest =>
    if a = "--max-blogs" ∨ a = "--blog-paths" ∨ a = "--timeout" then
      match rest with
      | [] => []
      | _ :: rest2 => claimedUrls rest2
    else if jsStartsWith a "http://" = true ∨ jsStartsWith a "https://" = true then
      a :: claimedUrls rest
    else claimedUrls rest


/-! ## Lemmas about the string primitives -/

theorem listContains_of_isPrefixOf {p l : List Char} (h : p.isPrefixOf l = true) :
    listContains p l = true := by
  cases l with
  | nil =>
    cases p with
    | nil => rfl
    | cons a t => simp [List.isPrefixOf] at h
  | cons a t => simp [listContains, h]

theorem listContains_of_dropWhile {p l : List Char} {w : Char → Bool}
    (h : listContains p (l.dropWhile w) = true) : listContains p l = true := by
  induction l with
  | nil => simpa [List.dropWhile] using h
  | cons a t ih =>
    by_cases hw : w a
    · have ht : listContains p t = true := ih (by simpa [List.dropWhile, hw] using h)
      simp [listContains, ht]
    · simpa [List.dropWhile, hw] using h

theorem jsIncludes_of_startsWith_trimStart {t pre : String}
    (h : jsStartsWith (jsTrimStart t) pre = true) : jsIncludes t pre = true := by
  unfold jsStartsWith jsTrimStart at h
  unfold jsIncludes
  exact listContains_of_dropWhile (listContains_of_isPrefixOf h)

/-! ## Lemmas about the ordered maps and sets -/

theorem lookupA_append_left {α : Type} (m' : List (String × α)) :
    ∀ (m : List (String × α)) (k : String) (v : α),
      lookupA m k = some v → lookupA (m ++ m') k = some v
  | [], k, v, h => by simp [lookupA] at h
  | p :: t, k, v, h => by
    unfold lookupA at h ⊢
    rw [List.cons_append]
    by_cases hk : p.1 = k
    · rw [List.find?_cons_of_pos _ (by simpa using hk)] at h ⊢
      exact h
    · rw [List.find?_cons_of_neg _ (by simpa using hk)] at h ⊢
      exact lookupA_append_left m' t k v h

theorem lookupA_insertIfAbsent {α : Type} {m : List (String × α)} {k : String} {v : α}
    (k' : String) (v' : α) (h : lookupA m k = some v) :
    lookupA (insertIfAbsent m k' v') k = some v := by
  unfold insertIfAbsent
  split
  · exact h
  · exact lookupA_append_left _ m k v h

theorem hasA_false_iff {α : Type} : ∀ (m : List (String × α)) (k : String),
    hasA m k = false ↔ k ∉ keysA m
  | [], k => by simp [hasA, lookupA, keysA]
  | p :: t, k => by
    by_cases hk : p.1 = k
    · simp only [hasA, lookupA, keysA, List.map_cons, List.mem_cons]
      rw [List.find?_cons_of_pos _ (by simpa using hk)]
      simp [hk]
    · simp only [hasA, lookupA, keysA, List.map_cons, List.mem_cons]
      rw [List.find?_cons_of_neg _ (by simpa using hk)]
      have ih := hasA_false_iff t k
      simp only [hasA, lookupA, keysA] at ih
      rw [ih]
      constructor
      · intro h hmem
        rcases hmem with h1 | h2
        · exact hk h1.symm
        · exact h h2
      · intro h
        exact fun hm => h (Or.inr hm)

theorem keysA_insertIfAbsent_nodup {α : Type} {m : List (String × α)}
    (k : String) (v : α) (h : (keysA m).Nodup) :
    (keysA (insertIfAbsent m k v)).Nodup := by
  unfold insertIfAbsent
  split
  · exact h
  · rename_i hk
    have hk' : k ∉ keysA m := (hasA_false_iff m k).mp (by simpa using hk)
    have hkeys : keysA (m ++ [(k, v)]) = keysA m ++ [k] := by simp [keysA]
    rw [hkeys, List.nodup_append]
    refine ⟨h, by simp, ?_⟩
    intro x hx hxk
    have hxe : x = k := by simpa using hxk
    subst hxe
    exact hk' hx

theorem mem_setAdd {l : List String} {x p : String} (h : p ∈ setAdd l x) :
    p ∈ l ∨ p = x := by
  unfold setAdd at h
  split at h
  · exact Or.inl h
  · rcases List.mem_append.mp h with h' | h'
    · exact Or.inl h'
    · exact Or.inr (by simpa using h')

/-! ## Lemmas about the result tally of `main` -/

theorem tallyResults_go_snd (results : List DiscoveredResult) :
    ∀ n b, (results.foldl
        (fun acc r =>
          if truthyStr r.error then (acc.1, true) else (acc.1 + r.feeds.length, acc.2))
        (n, b)).2 = (b || results.any (fun r => truthyStr r.error)) := by
  induction results with
  | nil => simp
  | cons r t ih =>
    intro n b
    by_cases hr : truthyStr r.error
    · simp [List.foldl, hr, ih, Bool.or_assoc]
    · simp [List.foldl, hr, ih, Bool.or_assoc]

theorem tallyResults_snd (results : List DiscoveredResult) :
    (tallyResults results).2 = results.any (fun r => truthyStr r.error) := by
  simpa using tallyResults_go_snd results 0 false

theorem tallyResults_go_fst (results : List DiscoveredResult)
    (hz : ∀ r ∈ results, truthyStr r.error = true → r.feeds = []) :
    ∀ n b, (results.foldl
        (fun acc r =>
          if truthyStr r.error then (acc.1, true) else (acc.1 + r.feeds.length, acc.2))
        (n, b)).1 = n + (results.map (fun r => r.feeds.length)).sum := by
  induction results with
  | nil => simp
  | cons r t ih =>
    intro n b
    have ht : ∀ r' ∈ t, truthyStr r'.error = true → r'.feeds = [] := by
      intro r' hr' h'
      exact hz r' (List.mem_cons_of_mem _ hr') h'
    by_cases hr : truthyStr r.error
    · have hfeeds : r.feeds = [] := hz r (List.mem_cons_self _ _) hr
      simp [List.foldl, hr, ih ht, hfeeds]
    · simp [List.foldl, hr, ih ht, Nat.add_assoc]

theorem tallyResults_fst (results : List DiscoveredResult)
    (hz : ∀ r ∈ results, truthyStr r.error = true → r.feeds = []) :
    (tallyResults results).1 = (results.map (fun r => r.feeds.length)).sum := by
  simpa using tallyResults_go_fst results hz 0 false

/-! ## C4 — FeedValidator acceptance condition -/

/-- C4: for every response body and content-type string, the feed validator
accepts iff the body contains `<rss` or `<feed`, and the body contains
`<?xml` or the content-type contains "xml", "rss" or "atom", and the
content-type does not contain "text/html"; in particular a `text/html`
content-type is always rejected and an XML-declared atom body under
`application/atom+xml` is accepted. -/
theorem c4_feed_validator_iff (text contentType : String) :
    isValidFeed text contentType = true ↔
      (jsIncludes text "<rss" = true ∨ jsIncludes text "<feed" = true) ∧
      (jsIncludes text "<?xml" = true ∨ jsIncludes contentType "xml" = true ∨
        jsIncludes contentType "rss" = true ∨ jsIncludes contentType "atom" = true) ∧
      ¬ jsIncludes contentType "text/html" = true := by
  unfold isValidFeed
  constructor
  · intro h
    simp only [Bool.and_eq_true, Bool.or_eq_true, Bool.not_eq_true'] at h
    obtain ⟨⟨hmark, hxml⟩, hhtml⟩ := h
    refine ⟨hmark, ?_, by simp [hhtml]⟩
    rcases hxml with (hdecl | hstart) | hct
    · exact Or.inl (jsIncludes_of_startsWith_trimStart hdecl)
    · exact Or.inl hstart
    · tauto
  · intro ⟨hmark, hxml, hhtml⟩
    simp only [Bool.and_eq_true, Bool.or_eq_true, Bool.not_eq_true']
    refine ⟨⟨hmark, ?_⟩, by simpa using hhtml⟩
    rcases hxml with hdecl | hct
    · exact Or.inl (Or.inr hdecl)
    · tauto

/-! ## C1 — the good/bad two-URL scenario -/

/-- C1 counterexample: in the scenario where `good.example` yields one
validating declared atom feed and `bad.example`'s root fetch rejects with a
network error, the claimed output shape does not hold — the run does not
have `success = false`, `partialResults = true` and a non-empty
`results[1].error` (the network failure is swallowed inside the site
scanner, so `error` stays null and `success` stays true). -/
theorem c1_counterexample :
    ¬ (c1Report.success = false ∧ c1Report.partialResults = some true ∧
       (c1Report.results.getD 0 noResult).feeds.length = 1 ∧
       truthyStr (c1Report.results.getD 1 noResult).error = true ∧
       (c1Report.results.getD 1 noResult).feeds.length = 0) := by
  decide

/-- C1 amended: in that same scenario `results[0].feeds` has length 1 and
`results[1].feeds` is empty as claimed, but the fetch failure of
`bad.example` is recovered inside `scanURLForFeeds` (lines 332–335), so
`results[1].error` is null, `success` is true, `partialResults` is absent,
and the process exits 0. -/
theorem c1_amended :
    mainModel envC1 c1Args =
      (0, some
        { success := true
          partialResults := none
          results :=
            [{ url := goodURL
               feeds := [{ url := goodFeedURL, title := "Blog", type := FeedType.atom }]
               error := none },
             { url := badURL, feeds := [], error := none }] }) := by
  decide

/-! ## C2 — timeout normalization -/

/-- C2: when the per-URL deadline aborts the root fetch, the abort
`DOMException` is thrown inside `scanURLForFeeds` and caught by its
blanket `catch` (lines 332–335), so `findRSSFeeds` returns
`error = null` — not the claimed literal `"Timeout"` (the normalization
in lines 386–393 is unreachable for fetch timeouts, and it also tests for
the name `AbortError` while `AbortSignal.timeout` aborts carry the name
`TimeoutError`). -/
theorem c2_timeout_swallowed :
    scanURLForFeedsBody envC2 slowURL =
      Except.error
        (JSError.domException "TimeoutError" "The operation was aborted due to timeout") ∧
    findRSSFeeds envC2 defaultCliOptions slowURL =
      { url := slowURL, feeds := [], error := none } :=
  ⟨rfl, rfl⟩

/-! ## C3 — process exit codes -/

/-- C3 counterexample: a run whose results carry an error while at least
one feed was found exits with code 2, not the claimed 0 — the `hasError`
branch of lines 462–468 takes precedence over the feeds-found branch. -/
theorem c3_counterexample :
    c3Results.any (fun r => truthyStr r.error) = true ∧
    0 < (c3Results.map (fun r => r.feeds.length)).sum ∧
    (mainAggregate c3Results).2 = 2 := by
  decide

/-- C3 amended: exit code 0 is returned for `--help`/`--version` or when no
result has an error and at least one feed was found; 1 when no result has
an error and zero feeds were found; and 2 for a parse/usage error, an empty
URL list, or whenever at least one result carries an error — regardless of
whether feeds were found. -/
theorem c3_amended :
    (∀ results : List DiscoveredResult,
        results.any (fun r => truthyStr r.error) = true → (mainAggregate results).2 = 2) ∧
    (∀ results : List DiscoveredResult,
        results.any (fun r => truthyStr r.error) = false →
        (∀ r ∈ results, truthyStr r.error = true → r.feeds = []) →
        (mainAggregate results).2 =
          if (results.map (fun r => r.feeds.length)).sum = 0 then 1 else 0) ∧
    (∀ (env : Env) (args urls : List String) (opts : CLIOptions),
        parseArgs args = Except.ok (urls, opts) →
        (opts.version = true ∨ opts.help = true) → (mainModel env args).1 = 0) ∧
    (∀ (env : Env) (args : List String) (e : String),
        parseArgs args = Except.error e → (mainModel env args).1 = 2) := by
  refine ⟨?_, ?_, ?_, ?_⟩
  · intro results h
    unfold mainAggregate
    simp [tallyResults_snd, h]
  · intro results h hz
    unfold mainAggregate
    simp only [tallyResults_snd, h, tallyResults_fst results hz]
    simp
  · intro env args urls opts hparse hvh
    unfold mainModel
    rw [hparse]
    rcases hvh with hv | hh
    · simp [hv]
    · by_cases hv : opts.version = true
      · simp [hv]
      · simp [hv, hh]
  · intro env args e hparse
    unfold mainModel
    rw [hparse]

/-- C3 amended, instantiated: the error-and-feed run `c3Results` exits 2,
the empty run exits 1, `--version` exits 0, and a usage error exits 2. -/
theorem c3_amended_witness :
    (mainAggregate c3Results).2 = 2 ∧
    (mainAggregate ([] : List DiscoveredResult)).2 = 1 ∧
    (mainModel envC2 ["--version"]).1 = 0 ∧
    (mainModel envC2 ["--max-blogs"]).1 = 2 := by
  refine ⟨c3_amended.1 c3Results (by decide), ?_, ?_, ?_⟩
  · have h := c3_amended.2.1 ([] : List DiscoveredResult) (by decide) (by simp)
    simpa using h
  · exact c3_amended.2.2.1 envC2 ["--version"] []
      { defaultCliOptions with version := true } rfl (Or.inl rfl)
  · exact c3_amended.2.2.2 envC2 ["--max-blogs"] "--max-blogs requires a value" rfl

/-! ## C5 — RunReport shape -/

/-- The coordinator labels its result with the input URL (both the normal
return at line 381 and the catch return at line 395 set `url: baseUrl`). -/
theorem findRSSFeeds_url (env : Env) (opts : CLIOptions) (u : String) :
    (findRSSFeeds env opts u).url = u := rfl

/-- In this embedding the coordinator body never throws (every fetch
rejection is already recovered inside `scanURLForFeeds`), so the error
field of its result is always null. -/
theorem findRSSFeeds_error (env : Env) (opts : CLIOptions) (u : String) :
    (findRSSFeeds env opts u).error = none := rfl

/-- C5: over result lists of the shape the coordinator produces (an error
is never the empty string, and an errored result carries no feeds),
`success` is true iff no result has an error; `partialResults` is present —
and then necessarily `true` — iff `success` is false and at least one feed
was found across all results; and the results sequence is the per-input-URL
results in input order. -/
theorem c5_run_report :
    (∀ results : List DiscoveredResult,
      (∀ r ∈ results, r.error ≠ some "") →
      (∀ r ∈ results, r.error ≠ none → r.feeds = []) →
      (((mainAggregate results).1.success = true ↔ ∀ r ∈ results, r.error = none) ∧
       ((mainAggregate results).1.partialResults = some true ↔
         ((mainAggregate results).1.success = false ∧
          0 < (results.map (fun r => r.feeds.length)).sum)) ∧
       ((mainAggregate results).1.partialResults = some true ∨
        (mainAggregate results).1.partialResults = none) ∧
       (mainAggregate results).1.results = results)) ∧
    (∀ (env : Env) (opts : CLIOptions) (urls : List String),
      ((mainAggregate (urls.map (findRSSFeeds env opts))).1.results).map
        (fun r => r.url) = urls) := by
  constructor
  · intro results h1 h2
    have htr : ∀ r ∈ results, (truthyStr r.error = true ↔ r.error ≠ none) := by
      intro r hr
      cases herr : r.error with
      | none => simp [truthyStr]
      | some s =>
        have hs : s ≠ "" := by
          intro hs0
          exact h1 r hr (by rw [herr, hs0])
        simp [truthyStr, hs]
    have hz : ∀ r ∈ results, truthyStr r.error = true → r.feeds = [] := by
      intro r hr htru
      exact h2 r hr ((htr r hr).mp htru)
    have hfst := tallyResults_fst results hz
    have hsnd := tallyResults_snd results
    have hsucc : (mainAggregate results).1.success
        = !(results.any fun r => truthyStr r.error) := by
      simp only [mainAggregate, hsnd]
    have hpartialEq : (mainAggregate results).1.partialResults =
        if (results.any fun r => truthyStr r.error)
            && decide (0 < (results.map (fun r => r.feeds.length)).sum)
          then some true else none := by
      simp only [mainAggregate, hsnd, hfst]
    refine ⟨?_, ?_, ?_, rfl⟩
    · constructor
      · intro hstrue r hr
        have hfalse : results.any (fun r => truthyStr r.error) = false := by
          rw [hsucc] at hstrue
          simpa using hstrue
        have hnt := List.any_eq_false.mp hfalse r hr
        by_contra hne
        exact hnt ((htr r hr).mpr hne)
      · intro hall
        rw [hsucc]
        have hfalse : results.any (fun r => truthyStr r.error) = false := by
          rw [List.any_eq_false]
          intro r hr ht
          exact ((htr r hr).mp ht) (hall r hr)
        simp [hfalse]
    · rw [hpartialEq]
      by_cases hc : ((results.any fun r => truthyStr r.error)
          && decide (0 < (results.map (fun r => r.feeds.length)).sum)) = true
      · rw [if_pos hc]
        simp only [Bool.and_eq_true, decide_eq_true_eq] at hc
        constructor
        · intro _
          exact ⟨by rw [hsucc]; simp [hc.1], hc.2⟩
        · intro _
          rfl
      · rw [if_neg hc]
        simp only [Bool.and_eq_true, decide_eq_true_eq] at hc
        constructor
        · intro habs
          exact absurd habs (by simp)
        · intro ⟨hsf, hpos⟩
          exfalso
          apply hc
          refine ⟨?_, hpos⟩
          rw [hsucc] at hsf
          simpa using hsf
    · rw [hpartialEq]
      split
      · exact Or.inl rfl
      · exact Or.inr rfl
  · intro env opts urls
    have hmap : ∀ us : List String,
        (us.map (findRSSFeeds env opts)).map (fun r => r.url) = us := by
      intro us
      induction us with
      | nil => rfl
      | cons u t ih => simp [findRSSFeeds_url, ih]
    have hres : (mainAggregate (urls.map (findRSSFeeds env opts))).1.results
        = urls.map (findRSSFeeds env opts) := rfl
    rw [hres]
    exact hmap urls

/-- C5 instantiated at a mixed failure/success result list: the report is
not successful and `partialResults` is set to `true`. -/
theorem c5_run_report_witness :
    (mainAggregate c5Results).1.partialResults = some true ∧
    (mainAggregate c5Results).1.success = false := by
  have h := c5_run_report.1 c5Results (by decide) (by decide)
  have hne : ¬ (∀ r ∈ c5Results, r.error = none) := by decide
  have hs : (mainAggregate c5Results).1.success = false := by
    cases hsb : (mainAggregate c5Results).1.success
    · rfl
    · exact absurd (h.1.mp hsb) hne
  exact ⟨h.2.1.mpr ⟨hs, by decide⟩, hs⟩

/-! ## C6 — custom blog paths -/

/-- C6 counterexample: with the override `["/custom"]` configured, HTML
containing a same-origin `/blog` anchor makes `discoverBlogSubdirectories`
return `["/blog", "/custom"]` — the heuristic paths come first and the
override is appended (lines 233–239), so the result is not the override
list truncated to `maxBlogs`. -/
theorem c6_counterexample :
    optsC6.customBlogPaths = some ["/custom"] ∧
    discoverBlogSubdirectories envEx optsC6 exURL (some blogHtml) = ["/blog", "/custom"] ∧
    discoverBlogSubdirectories envEx optsC6 exURL (some blogHtml) ≠
      ["/custom"].take optsC6.maxBlogs := by
  decide

/-- Folding `Set.prototype.add` over a duplicate-free list starting from a
set it is disjoint from appends the whole list. -/
theorem foldl_setAdd_of_nodup :
    ∀ (L acc : List String), (acc ++ L).Nodup → L.foldl setAdd acc = acc ++ L
  | [], acc, _ => by simp
  | x :: t, acc, h => by
    have hx : x ∉ acc := by
      rw [List.nodup_append] at h
      intro hmem
      exact h.2.2 hmem (List.mem_cons_self x t)
    have hadd : setAdd acc x = acc ++ [x] := by simp [setAdd, hx]
    have h' : ((acc ++ [x]) ++ t).Nodup := by
      rw [← List.append_cons]
      exact h
    calc (x :: t).foldl setAdd acc = t.foldl setAdd (acc ++ [x]) := by
          rw [List.foldl_cons, hadd]
      _ = (acc ++ [x]) ++ t := foldl_setAdd_of_nodup t (acc ++ [x]) h'
      _ = acc ++ x :: t := by rw [← List.append_cons]

/-- C6 amended: the override list is returned exactly (truncated to
`maxBlogs`) only when the HTML link heuristic produces no paths — in
particular whenever no HTML is available — and the override has no
duplicate entries; otherwise the heuristic paths come first and the
override entries not already present are appended after them before
truncation. -/
theorem c6_amended (env : Env) (opts : CLIOptions) (baseUrl : String)
    (html : Option String) (L : List String)
    (hL : opts.customBlogPaths = some L) (hnodup : L.Nodup)
    (hheur : blogHeuristicPaths env baseUrl html = []) :
    discoverBlogSubdirectories env opts baseUrl html = L.take opts.maxBlogs := by
  unfold discoverBlogSubdirectories
  rw [hheur]
  simp only [List.length_nil, hL, Option.isSome_some, or_true, if_pos, Option.getD_some]
  rw [foldl_setAdd_of_nodup L [] (by simpa using hnodup)]
  simp

/-- C6 amended, instantiated: with no HTML available the result is exactly
the override list truncated to `maxBlogs`. -/
theorem c6_amended_witness :
    discoverBlogSubdirectories envEx optsC6 exURL none = ["/custom"].take optsC6.maxBlogs :=
  c6_amended envEx optsC6 exURL none ["/custom"] rfl (by decide) rfl

/-! ## C7 — section-root derivation from anchor paths -/

/-- C7: an anchor whose path splits into more than 3 segments never adds a
section root on its own, and a not-yet-seen keyword-matched anchor whose
absolute path has 1–3 segments derives the root `/` + first segment, added
only if that root is not already seen. -/
theorem c7_section_root_derivation :
    (∀ (st : List String × List String) (link : LinkInfo),
        3 < (jsPathParts link.path).length →
        (processBlogLink st link).1 = st.1) ∧
    (∀ (st : List String × List String) (link : LinkInfo),
        link.path ∉ st.2 →
        (findBlogKeyword link.text (jsToLower link.path)).isSome = true →
        jsStartsWith link.path "/" = true →
        1 ≤ (jsPathParts link.path).length →
        (jsPathParts link.path).length ≤ 3 →
        (processBlogLink st link).1 =
          if ("/" ++ (jsPathParts link.path).headD "") ∈ st.2 then st.1
          else setAdd st.1 ("/" ++ (jsPathParts link.path).headD "")) := by
  constructor
  · intro st link hlen
    simp only [processBlogLink]
    split
    · rfl
    · split
      · split
        · split
          · rename_i hc
            exact absurd hc.2 (by omega)
          · rfl
        · rfl
      · rfl
  · intro st link hmem hkw hsw h1 h3
    have hne : link.path ≠ "/" := by
      intro h
      rw [h] at h1
      exact absurd h1 (by decide)
    obtain ⟨kw, hkws⟩ := Option.isSome_iff_exists.mp hkw
    simp only [processBlogLink]
    rw [if_neg hmem, hkws]
    simp only []
    rw [if_pos ⟨hsw, hne⟩, if_pos ⟨h1, h3⟩]
    by_cases hin : ("/" ++ (jsPathParts link.path).headD "") ∈ st.2
    · rw [if_pos hin, if_pos hin]
    · rw [if_neg hin, if_neg hin]

/-- C7 instantiated: a 4-segment anchor contributes nothing, and a fresh
2-segment `/blog/post` anchor derives the root `/blog`. -/
theorem c7_witness :
    (processBlogLink (["/x"], ["/y"])
        { text := "deep", path := "/a/b/c/d", href := "https://e.example/a/b/c/d" }).1
      = ["/x"] ∧
    (processBlogLink (([] : List String), ([] : List String))
        { text := "blog", path := "/blog/post", href := "https://e.example/blog/post" }).1
      = (if ("/" ++ (jsPathParts "/blog/post").headD "") ∈ ([] : List String) then []
         else setAdd [] ("/" ++ (jsPathParts "/blog/post").headD "")) :=
  ⟨c7_section_root_derivation.1 _ _ (by decide),
   c7_section_root_derivation.2 _ _ (by decide) (by decide) (by decide) (by decide)
     (by decide)⟩

/-! ## C8 — candidate map deduplication -/

/-- Every iteration of the declared-link pass either leaves the candidate
map unchanged or performs one guarded insertion. -/
theorem declaredStep_shape (env : Env) (url : String) :
    ∀ (m : List (String × FeedResult)) (el : LinkAlt),
      declaredStep env url m el = m ∨
      ∃ k v, declaredStep env url m el = insertIfAbsent m k v := by
  intro m el
  simp only [declaredStep]
  repeat' split
  all_goals first
    | exact Or.inl rfl
    | exact Or.inr ⟨_, _, rfl⟩

/-- Every iteration of the conventional-path pass either leaves the
candidate map unchanged or performs one guarded insertion. -/
theorem conventionalStep_shape (env : Env) (url : String) :
    ∀ (m : List (String × FeedResult)) (path : String),
      conventionalStep env url m path = m ∨
      ∃ k v, conventionalStep env url m path = insertIfAbsent m k v := by
  intro m path
  simp only [conventionalStep]
  repeat' split
  all_goals first
    | exact Or.inl rfl
    | exact Or.inr ⟨_, _, rfl⟩

/-- A fold whose steps only ever perform guarded insertions keeps the key
list duplicate-free. -/
theorem foldl_keysA_nodup {α β : Type}
    (step : List (String × α) → β → List (String × α))
    (hstep : ∀ m x, step m x = m ∨ ∃ k v, step m x = insertIfAbsent m k v) :
    ∀ (l : List β) (m : List (String × α)),
      (keysA m).Nodup → (keysA (l.foldl step m)).Nodup
  | [], _, h => h
  | x :: t, m, h => by
    rw [List.foldl_cons]
    apply foldl_keysA_nodup step hstep t
    rcases hstep m x with h' | ⟨k, v, h'⟩
    · rw [h']
      exact h
    · rw [h']
      exact keysA_insertIfAbsent_nodup k v h

/-- A fold whose steps only ever perform guarded insertions never
overwrites an existing binding. -/
theorem foldl_lookupA_preserve {α β : Type}
    (step : List (String × α) → β → List (String × α))
    (hstep : ∀ m x, step m x = m ∨ ∃ k v, step m x = insertIfAbsent m k v) :
    ∀ (l : List β) (m : List (String × α)) (k : String) (v : α),
      lookupA m k = some v → lookupA (l.foldl step m) k = some v
  | [], _, _, _, h => h
  | x :: t, m, k, v, h => by
    rw [List.foldl_cons]
    apply foldl_lookupA_preserve step hstep t
    rcases hstep m x with h' | ⟨k', v', h'⟩
    · rw [h']
      exact h
    · rw [h']
      exact lookupA_insertIfAbsent k' v' h

/-- C8: the candidate map never holds two entries with the same resolved
URL, and a binding made by the declared-links pass is never overwritten by
the conventional-path pass — the first occurrence wins. -/
theorem c8_candidate_dedup :
    (∀ (env : Env) (url : String) (doc : HTMLDoc),
        (keysA (candidateFeeds env url doc)).Nodup) ∧
    (∀ (env : Env) (url : String) (doc : HTMLDoc) (k : String) (v : FeedResult),
        lookupA (declaredFeedCandidates env url doc.alternates) k = some v →
        lookupA (candidateFeeds env url doc) k = some v) := by
  constructor
  · intro env url doc
    unfold candidateFeeds conventionalFeedCandidates
    apply foldl_keysA_nodup _ (conventionalStep_shape env url)
    unfold declaredFeedCandidates
    apply foldl_keysA_nodup _ (declaredStep_shape env url)
    simp [keysA]
  · intro env url doc k v h
    unfold candidateFeeds conventionalFeedCandidates
    exact foldl_lookupA_preserve _ (conventionalStep_shape env url) _ _ k v h

/-- C8 instantiated: the declared entry (title "Main") survives the
conventional-path pass for the colliding `rss.xml` URL, and the key list is
duplicate-free. -/
theorem c8_candidate_dedup_witness :
    lookupA (candidateFeeds envEx exURL c8Doc) "https://example.com/rss.xml" =
      some { url := "https://example.com/rss.xml", title := "Main", type := FeedType.rss } ∧
    (keysA (candidateFeeds envEx exURL c8Doc)).Nodup :=
  ⟨c8_candidate_dedup.2 envEx exURL c8Doc _ _ (by decide),
   c8_candidate_dedup.1 envEx exURL c8Doc⟩

/-! ## C9 — section paths come from same-origin anchors -/

/-- One loop iteration can only add the root derived from the link it
processes. -/
theorem mem_processBlogLink_fst {st : List String × List String} {link : LinkInfo}
    {p : String} (h : p ∈ (processBlogLink st link).1) :
    p ∈ st.1 ∨ p = "/" ++ (jsPathParts link.path).headD "" := by
  simp only [processBlogLink] at h
  split at h
  · exact Or.inl h
  · split at h
    · split at h
      · split at h
        · split at h
          · exact Or.inl h
          · rcases mem_setAdd h with hl | he
            · exact Or.inl hl
            · exact Or.inr he
        · exact Or.inl h
      · exact Or.inl h
    · exact Or.inl h

/-- Every root produced by the loop comes from one of the processed links. -/
theorem mem_foldl_processBlogLink :
    ∀ (links : List LinkInfo) (st : List String × List String) (p : String),
      p ∈ (links.foldl processBlogLink st).1 →
      p ∈ st.1 ∨ ∃ link ∈ links, p = "/" ++ (jsPathParts link.path).headD ""
  | [], _, _, h => Or.inl h
  | l :: t, st, p, h => by
    rw [List.foldl_cons] at h
    rcases mem_foldl_processBlogLink t (processBlogLink st l) p h with h1 | ⟨link, hlink, he⟩
    · rcases mem_processBlogLink_fst h1 with h2 | he
      · exact Or.inl h2
      · exact Or.inr ⟨l, List.mem_cons_self _ _, he⟩
    · exact Or.inr ⟨link, List.mem_cons_of_mem _ hlink, he⟩

/-- C9: every section candidate path produced by the link heuristic derives
from an anchor of the page whose resolved URL shares its origin with the
base URL — anchors that resolve cross-origin (or fail to resolve) never
contribute. -/
theorem c9_same_origin (env : Env) (html baseUrl p : String)
    (hp : p ∈ extractBlogLinksFromHTML env html baseUrl) :
    ∃ a ∈ (env.parseHTML html).anchors, ∃ u b : URLRec,
      env.resolveURL a.href baseUrl = some u ∧ env.parseURL baseUrl = some b ∧
      u.origin = b.origin ∧ p = "/" ++ (jsPathParts u.pathname).headD "" := by
  unfold extractBlogLinksFromHTML at hp
  rcases mem_foldl_processBlogLink _ _ _ hp with h | ⟨link, hlink, he⟩
  · simp at h
  · unfold sameOriginLinks at hlink
    obtain ⟨a, ha, hfa⟩ := List.mem_filterMap.mp hlink
    by_cases hhref : a.href ≠ ""
    · rw [if_pos hhref] at hfa
      cases hres : env.resolveURL a.href baseUrl with
      | none =>
        rw [hres] at hfa
        cases hbase : env.parseURL baseUrl with
        | none =>
          rw [hbase] at hfa
          exact Option.noConfusion hfa
        | some b =>
          rw [hbase] at hfa
          exact Option.noConfusion hfa
      | some u =>
        cases hbase : env.parseURL baseUrl with
        | none =>
          rw [hres, hbase] at hfa
          exact Option.noConfusion hfa
        | some b =>
          rw [hres, hbase] at hfa
          have hfa' : (if u.origin = b.origin then
              some { text := jsTrim (jsToLower a.text), path := u.pathname,
                     href := u.href }
              else none) = some link := hfa
          by_cases horig : u.origin = b.origin
          · rw [if_pos horig] at hfa'
            have hlinkeq := Option.some.inj hfa'
            subst hlinkeq
            exact ⟨a, ha, u, b, hres, rfl, horig, he⟩
          · rw [if_neg horig] at hfa'
            exact Option.noConfusion hfa'
    · rw [if_neg hhref] at hfa
      exact Option.noConfusion hfa

/-- C9 instantiated: the produced root `/blog` of the `example.com` page
traces back to its single same-origin anchor. -/
theorem c9_same_origin_witness :
    ∃ a ∈ (envEx.parseHTML blogHtml).anchors, ∃ u b : URLRec,
      envEx.resolveURL a.href exURL = some u ∧ envEx.parseURL exURL = some b ∧
      u.origin = b.origin ∧ "/blog" = "/" ++ (jsPathParts u.pathname).headD "" :=
  c9_same_origin envEx blogHtml exURL "/blog" (by decide)

/-! ## C10 — parseArgs URL selection -/

/-- A value-taking option consumes its value. -/
theorem claimedUrls_valueOpt {a : String} (v : String) (rest2 : List String)
    (hv : a = "--max-blogs" ∨ a = "--blog-paths" ∨ a = "--timeout") :
    claimedUrls (a :: v :: rest2) = claimedUrls rest2 := by
  conv_lhs => rw [claimedUrls.eq_def]
  simp only [if_pos hv]

/-- A non-consumed URL token is kept. -/
theorem claimedUrls_url {a : String} (rest : List String)
    (hnv : ¬(a = "--max-blogs" ∨ a = "--blog-paths" ∨ a = "--timeout"))
    (hhttp : jsStartsWith a "http://" = true ∨ jsStartsWith a "https://" = true) :
    claimedUrls (a :: rest) = a :: claimedUrls rest := by
  conv_lhs => rw [claimedUrls.eq_def]
  simp only [if_neg hnv, if_pos hhttp]

/-- Any other token is dropped. -/
theorem claimedUrls_other {a : String} (rest : List String)
    (hnv : ¬(a = "--max-blogs" ∨ a = "--blog-paths" ∨ a = "--timeout"))
    (hnh : ¬(jsStartsWith a "http://" = true ∨ jsStartsWith a "https://" = true)) :
    claimedUrls (a :: rest) = claimedUrls rest := by
  conv_lhs => rw [claimedUrls.eq_def]
  simp only [if_neg hnv, if_neg hnh]

/-! ### Proofs for C10 -/

/-- One-step unfolding of the `parseArgs` loop on a cons cell. -/
theorem parseArgsGo_cons (arg : String) (rest : List String) (opts : CLIOptions)
    (urls : List String) :
    parseArgsGo (arg :: rest) opts urls =
      (if arg = "--help" ∨ arg = "-h" then
        parseArgsGo rest { opts with help := true } urls
      else if arg = "--version" ∨ arg = "-V" then
        parseArgsGo rest { opts with version := true } urls
      else if arg = "--verbose" ∨ arg = "-v" then
        parseArgsGo rest { opts with verbose := true } urls
      else if arg = "--no-blogs" ∨ arg = "--skip-blogs" then
        parseArgsGo rest { opts with skipBlogs := true } urls
      else if arg = "--max-blogs" then
        match rest with
        | [] => Except.error "--max-blogs requires a value"
        | v :: rest2 =>
          match jsParseInt v with
          | none => Except.error ("--max-blogs requires a positive number, got: " ++ v)
          | some n =>
            if n ≤ 0 then
              Except.error ("--max-blogs requires a positive number, got: " ++ v)
            else parseArgsGo rest2 { opts with maxBlogs := n.toNat } urls
      else if arg = "--blog-paths" then
        match rest with
        | [] => Except.error "--blog-paths requires a value"
        | v :: rest2 =>
          if jsTrim v = "" then Except.error "--blog-paths requires a value"
          else
            let parts := ((splitCharsP (fun c => c = ',' ∨ c = '|') v.toList).map
              (fun l => jsTrim (String.mk l))).filter (fun p => p ≠ "")
            parseArgsGo rest2 { opts with customBlogPaths := some parts } urls
      else if arg = "--timeout" then
        match rest with
        | [] => Except.error "--timeout requires a value"
        | v :: rest2 =>
          match jsParseInt v with
          | none => Except.error ("--timeout requires a positive number, got: " ++ v)
          | some n =>
            if n ≤ 0 then
              Except.error ("--timeout requires a positive number, got: " ++ v)
            else parseArgsGo rest2 { opts with timeout := n.toNat } urls
      else if jsStartsWith arg "http://" = true ∨ jsStartsWith arg "https://" = true then
        parseArgsGo rest opts (urls ++ [arg])
      else
        parseArgsGo rest opts urls) := by
  rw [parseArgsGo.eq_def]

/-- On success, the accumulated URLs are the initial accumulator followed by
the URL tokens of the remaining arguments. -/
theorem parseArgsGo_urls :
    ∀ (N : Nat) (l : List String), l.length ≤ N →
      ∀ (opts : CLIOptions) (urls0 : List String) (res : List String × CLIOptions),
        parseArgsGo l opts urls0 = Except.ok res → res.1 = urls0 ++ claimedUrls l := by
  intro N
  induction N with
  | zero =>
    intro l hl opts urls0 res hres
    have hnil : l = [] := List.length_eq_zero.mp (Nat.le_zero.mp hl)
    subst hnil
    rw [← Except.ok.inj hres]
    simp [claimedUrls]
  | succ N ih =>
    intro l hl opts urls0 res hres
    cases l with
    | nil =>
      rw [← Except.ok.inj hres]
      simp [claimedUrls]
    | cons arg rest =>
      have hlen : rest.length ≤ N := by
        simp only [List.length_cons] at hl
        omega
      rw [parseArgsGo_cons] at hres
      by_cases h1 : arg = "--help" ∨ arg = "-h"
      · rw [if_pos h1] at hres
        rw [claimedUrls_other rest (by rcases h1 with h | h <;> subst h <;> decide)
          (by rcases h1 with h | h <;> subst h <;> decide)]
        exact ih rest hlen _ _ _ hres
      · rw [if_neg h1] at hres
        by_cases h2 : arg = "--version" ∨ arg = "-V"
        · rw [if_pos h2] at hres
          rw [claimedUrls_other rest (by rcases h2 with h | h <;> subst h <;> decide)
            (by rcases h2 with h | h <;> subst h <;> decide)]
          exact ih rest hlen _ _ _ hres
        · rw [if_neg h2] at hres
          by_cases h3 : arg = "--verbose" ∨ arg = "-v"
          · rw [if_pos h3] at hres
            rw [claimedUrls_other rest (by rcases h3 with h | h <;> subst h <;> decide)
              (by rcases h3 with h | h <;> subst h <;> decide)]
            exact ih rest hlen _ _ _ hres
          · rw [if_neg h3] at hres
            by_cases h4 : arg = "--no-blogs" ∨ arg = "--skip-blogs"
            · rw [if_pos h4] at hres
              rw [claimedUrls_other rest (by rcases h4 with h | h <;> subst h <;> decide)
                (by rcases h4 with h | h <;> subst h <;> decide)]
              exact ih rest hlen _ _ _ hres
            · rw [if_neg h4] at hres
              by_cases h5 : arg = "--max-blogs"
              · rw [if_pos h5] at hres
                cases rest with
                | nil => exact Except.noConfusion hres
                | cons v rest2 =>
                  have hres2 : (match jsParseInt v with
                      | none =>
                        Except.error ("--max-blogs requires a positive number, got: " ++ v)
                      | some n =>
                        if n ≤ 0 then
                          Except.error ("--max-blogs requires a positive number, got: " ++ v)
                        else parseArgsGo rest2 { opts with maxBlogs := n.toNat } urls0)
                      = Except.ok res := hres
                  cases hpi : jsParseInt v with
                  | none =>
                    rw [hpi] at hres2
                    exact Except.noConfusion hres2
                  | some num =>
                    rw [hpi] at hres2
                    have hres3 : (if num ≤ 0 then
                        Except.error ("--max-blogs requires a positive number, got: " ++ v)
                      else parseArgsGo rest2 { opts with maxBlogs := num.toNat } urls0)
                        = Except.ok res := hres2
                    by_cases hnum : num ≤ 0
                    · rw [if_pos hnum] at hres3
                      exact Except.noConfusion hres3
                    · rw [if_neg hnum] at hres3
                      rw [claimedUrls_valueOpt v rest2 (Or.inl h5)]
                      exact ih rest2 (by simp only [List.length_cons] at hl; omega) _ _ _ hres3
              · rw [if_neg h5] at hres
                by_cases h6 : arg = "--blog-paths"
                · rw [if_pos h6] at hres
                  cases rest with
                  | nil => exact Except.noConfusion hres
                  | cons v rest2 =>
                    have hres2 : (if jsTrim v = "" then
                        Except.error "--blog-paths requires a value"
                      else parseArgsGo rest2
                        { opts with customBlogPaths := some (((splitCharsP
                            (fun c => c = ',' ∨ c = '|') v.toList).map
                            (fun l => jsTrim (String.mk l))).filter (fun p => p ≠ "")) }
                        urls0) = Except.ok res := hres
                    by_cases htrim : jsTrim v = ""
                    · rw [if_pos htrim] at hres2
                      exact Except.noConfusion hres2
                    · rw [if_neg htrim] at hres2
                      rw [claimedUrls_valueOpt v rest2 (Or.inr (Or.inl h6))]
                      exact ih rest2 (by simp only [List.length_cons] at hl; omega) _ _ _ hres2
                · rw [if_neg h6] at hres
                  by_cases h7 : arg = "--timeout"
                  · rw [if_pos h7] at hres
                    cases rest with
                    | nil => exact Except.noConfusion hres
                    | cons v rest2 =>
                      have hres2 : (match jsParseInt v with
                          | none =>
                            Except.error ("--timeout requires a positive number, got: " ++ v)
                          | some n =>
                            if n ≤ 0 then
                              Except.error ("--timeout requires a positive number, got: " ++ v)
                            else parseArgsGo rest2 { opts with timeout := n.toNat } urls0)
                          = Except.ok res := hres
                      cases hpi : jsParseInt v with
                      | none =>
                        rw [hpi] at hres2
                        exact Except.noConfusion hres2
                      | some num =>
                        rw [hpi] at hres2
                        have hres3 : (if num ≤ 0 then
                            Except.error ("--timeout requires a positive number, got: " ++ v)
                          else parseArgsGo rest2 { opts with timeout := num.toNat } urls0)
                            = Except.ok res := hres2
                        by_cases hnum : num ≤ 0
                        · rw [if_pos hnum] at hres3
                          exact Except.noConfusion hres3
                        · rw [if_neg hnum] at hres3
                          rw [claimedUrls_valueOpt v rest2 (Or.inr (Or.inr h7))]
                          exact ih rest2 (by simp only [List.length_cons] at hl; omega) _ _ _ hres3
                  · rw [if_neg h7] at hres
                    have hnv : ¬(arg = "--max-blogs" ∨ arg = "--blog-paths" ∨ arg = "--timeout") := by
                      rintro (h | h | h)
                      · exact h5 h
                      · exact h6 h
                      · exact h7 h
                    by_cases h8 : jsStartsWith arg "http://" = true ∨ jsStartsWith arg "https://" = true
                    · rw [if_pos h8] at hres
                      rw [claimedUrls_url rest hnv h8]
                      have hrec := ih rest hlen _ _ _ hres
                      rw [hrec, List.append_assoc]
                      rfl
                    · rw [if_neg h8] at hres
                      rw [claimedUrls_other rest hnv h8]
                      exact ih rest hlen _ _ _ hres

/-- An argument list free of value-taking options never raises a usage
error: every other token is either handled or silently ignored. -/
theorem parseArgsGo_ok_of_no_value_opts :
    ∀ (l : List String) (opts : CLIOptions) (urls0 : List String),
      (∀ a ∈ l, ¬(a = "--max-blogs" ∨ a = "--blog-paths" ∨ a = "--timeout")) →
      ∃ res, parseArgsGo l opts urls0 = Except.ok res
  | [], opts, urls0, _ => ⟨(urls0, opts), rfl⟩
  | arg :: rest, opts, urls0, h => by
    have hrest : ∀ a ∈ rest, ¬(a = "--max-blogs" ∨ a = "--blog-paths" ∨ a = "--timeout") :=
      fun a ha => h a (List.mem_cons_of_mem _ ha)
    have harg := h arg (List.mem_cons_self _ _)
    rw [parseArgsGo_cons]
    by_cases h1 : arg = "--help" ∨ arg = "-h"
    · rw [if_pos h1]
      exact parseArgsGo_ok_of_no_value_opts rest _ _ hrest
    · rw [if_neg h1]
      by_cases h2 : arg = "--version" ∨ arg = "-V"
      · rw [if_pos h2]
        exact parseArgsGo_ok_of_no_value_opts rest _ _ hrest
      · rw [if_neg h2]
        by_cases h3 : arg = "--verbose" ∨ arg = "-v"
        · rw [if_pos h3]
          exact parseArgsGo_ok_of_no_value_opts rest _ _ hrest
        · rw [if_neg h3]
          by_cases h4 : arg = "--no-blogs" ∨ arg = "--skip-blogs"
          · rw [if_pos h4]
            exact parseArgsGo_ok_of_no_value_opts rest _ _ hrest
          · rw [if_neg h4]
            rw [if_neg (fun he => harg (Or.inl he))]
            rw [if_neg (fun he => harg (Or.inr (Or.inl he)))]
            rw [if_neg (fun he => harg (Or.inr (Or.inr he)))]
            by_cases h8 : jsStartsWith arg "http://" = true ∨ jsStartsWith arg "https://" = true
            · rw [if_pos h8]
              exact parseArgsGo_ok_of_no_value_opts rest _ _ hrest
            · rw [if_neg h8]
              exact parseArgsGo_ok_of_no_value_opts rest _ _ hrest

/-- C10: when `parseArgs` succeeds it returns exactly the `http(s)://`
tokens among the non-consumed arguments, in input order; and an argument
list without value-taking options always succeeds, so an unknown flag such
as `--bogus` or a bare hostname like `example.com` raises no usage error
and contributes no URL. -/
theorem c10_parse_args :
    (∀ (args urls : List String) (opts : CLIOptions),
        parseArgs args = Except.ok (urls, opts) → urls = claimedUrls args) ∧
    (∀ args : List String,
        (∀ a ∈ args, ¬(a = "--max-blogs" ∨ a = "--blog-paths" ∨ a = "--timeout")) →
        ∃ res, parseArgs args = Except.ok res) := by
  constructor
  · intro args urls opts h
    have := parseArgsGo_urls args.length args (Nat.le_refl _) defaultCliOptions []
      (urls, opts) h
    simpa using this
  · intro args h
    exact parseArgsGo_ok_of_no_value_opts args defaultCliOptions [] h

/-- C10 instantiated: `--bogus` and `example.com` are silently dropped and
the lone `https://` token is returned. -/
theorem c10_parse_args_witness :
    (["https://a.example"] = claimedUrls ["--bogus", "example.com", "-v", "https://a.example"]) ∧
    ∃ res, parseArgs ["--bogus", "example.com", "-v", "https://a.example"] = Except.ok res :=
  ⟨c10_parse_args.1 ["--bogus", "example.com", "-v", "https://a.example"] ["https://a.example"]
      { defaultCliOptions with verbose := true } rfl,
   c10_parse_args.2 ["--bogus", "example.com", "-v", "https://a.example"] (by decide)⟩

end RSSFeeds
